import Mathlib

/-!
Verification of the movement-and-collision core of `integer-physics-experiment`
(`src/collision.rs` and `src/game.rs`).

The swept vertex-vs-edge test (`collision.rs`) is generic over a `PhysicsNum`
exact-arithmetic capability; both the repository's test instantiation (`i64`)
and the production fixed-point type (`SubPixelI64`) are `i64`-backed with exact
semantics, so the embedding works over `Int`, with Rust's truncating `i64`
division rendered as `Int.tdiv`.

The movement resolver (`game.rs`) is embedded parametrically over the external
collaborators it consumes (shape bounding boxes, the narrow-phase shape test,
the loose quad tree, and the floating-point slide computation), so theorems
about it hold for every instantiation of those capabilities.
-/

/-- 2D vector over the exact integer-backed numeric capability
(`cgmath::Vector2<N>` at `N = i64` / `SubPixelI64`). -/
structure Vec2 where
  x : Int
  y : Int
deriving DecidableEq

instance : Add Vec2 := ⟨fun v w => ⟨v.x + w.x, v.y + w.y⟩⟩

instance : Sub Vec2 := ⟨fun v w => ⟨v.x - w.x, v.y - w.y⟩⟩

instance : Neg Vec2 := ⟨fun v => ⟨-v.x, -v.y⟩⟩

instance : Zero Vec2 := ⟨⟨0, 0⟩⟩

/-- cgmath's scalar multiplication `v * s` (componentwise, scalar on the right). -/
def Vec2.smul (v : Vec2) (s : Int) : Vec2 := ⟨v.x * s, v.y * s⟩

/-- `physics_num::dot`. -/
def dot (v w : Vec2) : Int := v.x * w.x + v.y * w.y

/-- `physics_num::magnitude2` (squared length). -/
def magnitude2 (v : Vec2) : Int := dot v v

/-- `vector2_cross_product` from `src/collision.rs`. -/
def vector2_cross_product (v w : Vec2) : Int := v.x * w.y - v.y * w.x

/-- Modelled from the spec: the `line_segment` crate is not under `src/`; the
spec's data model says an edge is a directed segment with `start` and `end`
points whose direction is `end - start`.  The `end` point is named `stop`
because `end` is a reserved word. -/
structure LineSegment where
  start : Vec2
  stop : Vec2
deriving DecidableEq

/-- `LineSegment::vector()`: the direction `end - start`. -/
def LineSegment.vector (s : LineSegment) : Vec2 := s.stop - s.start

/-- `Collision<N>` from `src/collision.rs`. -/
inductive Collision where
  | StartInsideEdge
  | CollidesWithEdgeAfter (allowed_movement : Vec2)
deriving DecidableEq

/-- `NoCollision` from `src/collision.rs`. -/
inductive NoCollision where
  | ColinearNonOverlapping
  | ParallelNonColinear
  | NonParallelNonIntersecting
deriving DecidableEq

/-- `reduce_one` from `src/collision.rs`: `sign(v) * (abs(v) - 1)`. -/
def reduce_one (v : Int) : Int := v.sign * (|v| - 1)

/-- `vertex_moving_towards_edge` from `src/collision.rs` (lines 29-118).
Rust's `Result<Collision, NoCollision>` is `Except NoCollision Collision`;
`i64` division truncates towards zero, hence `Int.tdiv`. -/
def vertex_moving_towards_edge (vertex vertex_movement : Vec2)
    (edge : LineSegment) (sign : Int) : Except NoCollision Collision :=
  let edge_vector := edge.vector
  let cross := vector2_cross_product vertex_movement edge_vector
  let vertex_to_edge_start := edge.start - vertex
  if cross = 0 then
    if vector2_cross_product vertex_to_edge_start vertex_movement = 0 then
      let mult_a_x_movement_len2 := dot vertex_to_edge_start vertex_movement
      let mult_b_x_movement_len2 :=
        dot (vertex_to_edge_start + edge_vector) vertex_movement
      let mult_min_x_movement_len2 :=
        if mult_a_x_movement_len2 < mult_b_x_movement_len2 then
          mult_a_x_movement_len2
        else
          mult_b_x_movement_len2
      let mult_max_x_movement_len2 :=
        if mult_a_x_movement_len2 < mult_b_x_movement_len2 then
          mult_b_x_movement_len2
        else
          mult_a_x_movement_len2
      let movement_len2 := magnitude2 vertex_movement
      if mult_max_x_movement_len2 < 0 ∨ mult_min_x_movement_len2 > movement_len2 then
        Except.error NoCollision.ColinearNonOverlapping
      else if mult_min_x_movement_len2 ≤ 0 then
        Except.ok Collision.StartInsideEdge
      else if mult_min_x_movement_len2 ≤ movement_len2 then
        let allowed_vertex_movement : Vec2 :=
          ⟨(vertex_movement.x * mult_min_x_movement_len2 - 1).tdiv movement_len2,
           (vertex_movement.y * mult_min_x_movement_len2 - 1).tdiv movement_len2⟩
        Except.ok (Collision.CollidesWithEdgeAfter
          (allowed_vertex_movement.smul sign))
      else
        Except.error NoCollision.ParallelNonColinear
    else
      Except.error NoCollision.ParallelNonColinear
  else
    let cross_abs := |cross|
    let cross_sign := cross.sign
    let vertex_multiplier_x_cross :=
      vector2_cross_product vertex_to_edge_start edge_vector
    let vertex_multiplier_x_cross_abs := vertex_multiplier_x_cross * cross_sign
    if vertex_multiplier_x_cross_abs < 0 then
      Except.error NoCollision.NonParallelNonIntersecting
    else if vertex_multiplier_x_cross_abs > cross_abs then
      Except.error NoCollision.NonParallelNonIntersecting
    else
      let edge_multiplier_x_cross :=
        vector2_cross_product vertex_to_edge_start vertex_movement
      let edge_multiplier_x_cross_abs := edge_multiplier_x_cross * cross_sign
      if edge_multiplier_x_cross_abs < 0 then
        Except.error NoCollision.NonParallelNonIntersecting
      else if edge_multiplier_x_cross_abs > cross_abs then
        Except.error NoCollision.NonParallelNonIntersecting
      else if vertex_multiplier_x_cross = 0 then
        Except.ok Collision.StartInsideEdge
      else
        let movement_to_intersection_point_x_cross :=
          vertex_movement.smul vertex_multiplier_x_cross
        let allowed_vertex_movement : Vec2 :=
          ⟨if movement_to_intersection_point_x_cross.x = 0 then 0
            else (reduce_one movement_to_intersection_point_x_cross.x).tdiv cross,
           if movement_to_intersection_point_x_cross.y = 0 then 0
            else (reduce_one movement_to_intersection_point_x_cross.y).tdiv cross⟩
        Except.ok (Collision.CollidesWithEdgeAfter
          (allowed_vertex_movement.smul sign))

/-- C3: the five concrete swept-test scenarios from the spec, at `sign = 1`:
a diagonal sweep into a diagonal edge, a horizontal sweep into a vertical
edge, a vertex starting on a colinear edge, a parallel-but-distinct edge,
and a colinear edge out of temporal range. -/
theorem vertex_moving_towards_edge_concrete_scenarios :
    vertex_moving_towards_edge ⟨0, 0⟩ ⟨3, 3⟩ ⟨⟨0, 4⟩, ⟨4, 0⟩⟩ 1 =
      Except.ok (Collision.CollidesWithEdgeAfter ⟨1, 1⟩) ∧
    vertex_moving_towards_edge ⟨0, 0⟩ ⟨10, 0⟩ ⟨⟨5, 5⟩, ⟨5, -5⟩⟩ 1 =
      Except.ok (Collision.CollidesWithEdgeAfter ⟨4, 0⟩) ∧
    vertex_moving_towards_edge ⟨2, 1⟩ ⟨2, 1⟩ ⟨⟨0, 0⟩, ⟨8, 4⟩⟩ 1 =
      Except.ok Collision.StartInsideEdge ∧
    vertex_moving_towards_edge ⟨0, 0⟩ ⟨2, 1⟩ ⟨⟨1, 1⟩, ⟨3, 2⟩⟩ 1 =
      Except.error NoCollision.ParallelNonColinear ∧
    vertex_moving_towards_edge ⟨0, 0⟩ ⟨2, 1⟩ ⟨⟨4, 2⟩, ⟨8, 4⟩⟩ 1 =
      Except.error NoCollision.ColinearNonOverlapping := by
  refine ⟨?_, ?_, ?_, ?_, ?_⟩ <;> rfl

/-- The outcome transformation claimed by the sign-symmetry property:
negate the allowed movement inside `CollidesWithEdgeAfter`, leave every
other classification unchanged. -/
def negate_allowed_movement :
    Except NoCollision Collision → Except NoCollision Collision
  | Except.ok (Collision.CollidesWithEdgeAfter a) =>
      Except.ok (Collision.CollidesWithEdgeAfter (-a))
  | r => r

theorem Vec2.neg_def (v : Vec2) : -v = ⟨-v.x, -v.y⟩ := rfl

theorem Vec2.zero_def : (0 : Vec2) = ⟨0, 0⟩ := rfl

/-- C8: negating `sign` yields the same classification and negates the
returned allowed movement; all other outcomes are unchanged. -/
theorem vertex_moving_towards_edge_sign_negation
    (vertex vertex_movement : Vec2) (edge : LineSegment) (sign : Int) :
    vertex_moving_towards_edge vertex vertex_movement edge (-sign) =
      negate_allowed_movement
        (vertex_moving_towards_edge vertex vertex_movement edge sign) := by
  simp only [vertex_moving_towards_edge]
  split_ifs <;>
    simp [negate_allowed_movement, Vec2.smul, Vec2.neg_def, mul_neg]

theorem magnitude2_pos (v : Vec2) (h : v ≠ 0) : 0 < magnitude2 v := by
  have hx : 0 ≤ v.x * v.x := mul_self_nonneg v.x
  have hy : 0 ≤ v.y * v.y := mul_self_nonneg v.y
  have hxy : v.x ≠ 0 ∨ v.y ≠ 0 := by
    by_contra hc
    push_neg at hc
    exact h (by cases v; simp [Vec2.zero_def] at hc ⊢; exact hc)
  rcases hxy with hx0 | hy0
  · have := mul_self_pos.mpr hx0
    simp only [magnitude2, dot]
    nlinarith
  · have := mul_self_pos.mpr hy0
    simp only [magnitude2, dot]
    nlinarith

/-- `vertex_moving_towards_edge` with each division site guarded: a division
whose divisor is zero (a panic in the Rust source for the fixed-point type,
and a silent wrong answer for `i64`) yields `none`; otherwise the function
behaves as the original.  Used to state the division-safety claim. -/
def vertex_moving_towards_edge_checked (vertex vertex_movement : Vec2)
    (edge : LineSegment) (sign : Int) : Option (Except NoCollision Collision) :=
  let edge_vector := edge.vector
  let cross := vector2_cross_product vertex_movement edge_vector
  let vertex_to_edge_start := edge.start - vertex
  if cross = 0 then
    if vector2_cross_product vertex_to_edge_start vertex_movement = 0 then
      let mult_a_x_movement_len2 := dot vertex_to_edge_start vertex_movement
      let mult_b_x_movement_len2 :=
        dot (vertex_to_edge_start + edge_vector) vertex_movement
      let mult_min_x_movement_len2 :=
        if mult_a_x_movement_len2 < mult_b_x_movement_len2 then
          mult_a_x_movement_len2
        else
          mult_b_x_movement_len2
      let mult_max_x_movement_len2 :=
        if mult_a_x_movement_len2 < mult_b_x_movement_len2 then
          mult_b_x_movement_len2
        else
          mult_a_x_movement_len2
      let movement_len2 := magnitude2 vertex_movement
      if mult_max_x_movement_len2 < 0 ∨ mult_min_x_movement_len2 > movement_len2 then
        some (Except.error NoCollision.ColinearNonOverlapping)
      else if mult_min_x_movement_len2 ≤ 0 then
        some (Except.ok Collision.StartInsideEdge)
      else if mult_min_x_movement_len2 ≤ movement_len2 then
        if movement_len2 = 0 then none
        else
          let allowed_vertex_movement : Vec2 :=
            ⟨(vertex_movement.x * mult_min_x_movement_len2 - 1).tdiv movement_len2,
             (vertex_movement.y * mult_min_x_movement_len2 - 1).tdiv movement_len2⟩
          some (Except.ok (Collision.CollidesWithEdgeAfter
            (allowed_vertex_movement.smul sign)))
      else
        some (Except.error NoCollision.ParallelNonColinear)
    else
      some (Except.error NoCollision.ParallelNonColinear)
  else
    let cross_abs := |cross|
    let cross_sign := cross.sign
    let vertex_multiplier_x_cross :=
      vector2_cross_product vertex_to_edge_start edge_vector
    let vertex_multiplier_x_cross_abs := vertex_multiplier_x_cross * cross_sign
    if vertex_multiplier_x_cross_abs < 0 then
      some (Except.error NoCollision.NonParallelNonIntersecting)
    else if vertex_multiplier_x_cross_abs > cross_abs then
      some (Except.error NoCollision.NonParallelNonIntersecting)
    else
      let edge_multiplier_x_cross :=
        vector2_cross_product vertex_to_edge_start vertex_movement
      let edge_multiplier_x_cross_abs := edge_multiplier_x_cross * cross_sign
      if edge_multiplier_x_cross_abs < 0 then
        some (Except.error NoCollision.NonParallelNonIntersecting)
      else if edge_multiplier_x_cross_abs > cross_abs then
        some (Except.error NoCollision.NonParallelNonIntersecting)
      else if vertex_multiplier_x_cross = 0 then
        some (Except.ok Collision.StartInsideEdge)
      else
        if cross = 0 then none
        else
          let movement_to_intersection_point_x_cross :=
            vertex_movement.smul vertex_multiplier_x_cross
          let allowed_vertex_movement : Vec2 :=
            ⟨if movement_to_intersection_point_x_cross.x = 0 then 0
              else (reduce_one movement_to_intersection_point_x_cross.x).tdiv
                cross,
             if movement_to_intersection_point_x_cross.y = 0 then 0
              else (reduce_one movement_to_intersection_point_x_cross.y).tdiv
                cross⟩
          some (Except.ok (Collision.CollidesWithEdgeAfter
            (allowed_vertex_movement.smul sign)))

/-- C7: on every input with nonzero movement no division by zero occurs:
the guarded variant never reaches a zero divisor and agrees with the
original function. -/
theorem vertex_moving_towards_edge_no_div_by_zero
    (vertex vertex_movement : Vec2) (edge : LineSegment) (sign : Int)
    (h : vertex_movement ≠ 0) :
    vertex_moving_towards_edge_checked vertex vertex_movement edge sign =
      some (vertex_moving_towards_edge vertex vertex_movement edge sign) := by
  have hpos := magnitude2_pos vertex_movement h
  simp only [vertex_moving_towards_edge_checked, vertex_moving_towards_edge]
  split_ifs <;> first
    | rfl
    | omega

/-- C7 witness: at vertex `(0,0)`, movement `(3,3)`, edge `(0,4)-(4,0)`,
`sign = 1`, the movement is nonzero and the guarded variant agrees with the
original function. -/
theorem vertex_moving_towards_edge_no_div_by_zero_witness :
    vertex_moving_towards_edge_checked ⟨0, 0⟩ ⟨3, 3⟩ ⟨⟨0, 4⟩, ⟨4, 0⟩⟩ 1 =
      some (vertex_moving_towards_edge ⟨0, 0⟩ ⟨3, 3⟩ ⟨⟨0, 4⟩, ⟨4, 0⟩⟩ 1) :=
  vertex_moving_towards_edge_no_div_by_zero ⟨0, 0⟩ ⟨3, 3⟩ ⟨⟨0, 4⟩, ⟨4, 0⟩⟩ 1
    (by decide)

/-- C1 counterexample: with `sign = 1` and the nonzero movement `(1,0)`
against the colinear edge `(1,0)-(6,0)`, the test returns
`CollidesWithEdgeAfter((0,-1))`: the allowed vector is not a scalar multiple
of the movement (their cross product is nonzero), its `y` component strictly
exceeds the movement's `y` component in magnitude, and its squared magnitude
is not strictly less than the movement's.  Moreover even in the non-parallel
branch exact direction colinearity fails: movement `(5,3)` into the vertical
edge `(3,0)-(3,10)` yields allowed movement `(2,1)`, and `(2,1)` is not a
scalar multiple of `(5,3)`. -/
theorem vertex_moving_towards_edge_allowed_invariant_counterexample :
    vertex_moving_towards_edge ⟨0, 0⟩ ⟨1, 0⟩ ⟨⟨1, 0⟩, ⟨6, 0⟩⟩ 1 =
      Except.ok (Collision.CollidesWithEdgeAfter ⟨0, -1⟩) ∧
    vector2_cross_product ⟨0, -1⟩ ⟨1, 0⟩ ≠ 0 ∧
    (Vec2.mk 1 0).y.natAbs < (Vec2.mk 0 (-1)).y.natAbs ∧
    ¬ magnitude2 ⟨0, -1⟩ < magnitude2 ⟨1, 0⟩ ∧
    vertex_moving_towards_edge ⟨0, 0⟩ ⟨5, 3⟩ ⟨⟨3, 0⟩, ⟨3, 10⟩⟩ 1 =
      Except.ok (Collision.CollidesWithEdgeAfter ⟨2, 1⟩) ∧
    vector2_cross_product ⟨2, 1⟩ ⟨5, 3⟩ ≠ 0 :=
  ⟨rfl, by decide, by decide, by decide, rfl, by decide⟩

theorem reduce_one_of_pos {v : Int} (h : 0 < v) : reduce_one v = v - 1 := by
  rw [reduce_one, Int.sign_eq_one_iff_pos.mpr h, abs_of_pos h, one_mul]

theorem reduce_one_of_neg {v : Int} (h : v < 0) : reduce_one v = v + 1 := by
  rw [reduce_one, Int.sign_eq_neg_one_iff_neg.mpr h, abs_of_neg h]
  ring

theorem reduce_one_natAbs {v : Int} (h : v ≠ 0) :
    (reduce_one v).natAbs = v.natAbs - 1 := by
  rw [reduce_one, Int.natAbs_mul, Int.natAbs_sign_of_nonzero h, Int.abs_eq_natAbs]
  have : 1 ≤ v.natAbs := Int.natAbs_pos.mpr h
  omega

theorem nat_div_bound (M K C : Nat) (hM : 1 ≤ M) (hK : 1 ≤ K) (hKC : K ≤ C) :
    (M * K - 1) / C < M := by
  have h3 : M * K ≤ M * C := Nat.mul_le_mul_left M hKC
  have h4 : 1 ≤ M * K :=
    Nat.one_le_iff_ne_zero.mpr (Nat.mul_ne_zero (by omega) (by omega))
  have hC : 0 < C := by omega
  rw [Nat.div_lt_iff_lt_mul hC]
  omega

/-- The non-parallel branch computes each allowed component as
`reduce_one (m * k) / c` (zero when `m * k` is zero), with the branch guards
giving `0 ≤ k * sign c ≤ |c|` and `k ≠ 0`.  Such a component is zero when
`m` is, agrees with `m` in sign, and is strictly smaller in magnitude. -/
theorem allowed_component_bound (m k c a : Int) (hc : c ≠ 0) (hk : k ≠ 0)
    (h1 : 0 ≤ k * c.sign) (h2 : k * c.sign ≤ |c|)
    (ha : a = if m * k = 0 then 0 else (reduce_one (m * k)).tdiv c) :
    0 ≤ a * m ∧ (m = 0 → a = 0) ∧ (m ≠ 0 → a.natAbs < m.natAbs) := by
  by_cases hm : m = 0
  · subst hm
    simp at ha
    simp [ha]
  · have hvne : m * k ≠ 0 := mul_ne_zero hm hk
    rw [if_neg hvne] at ha
    have hm1 : 1 ≤ m.natAbs := Int.natAbs_pos.mpr hm
    have hk1 : 1 ≤ k.natAbs := Int.natAbs_pos.mpr hk
    have hsigns : k.natAbs ≤ c.natAbs ∧ (0 < c → 0 < k) ∧ (c < 0 → k < 0) := by
      rcases hc.lt_or_lt with hcneg | hcpos
      · rw [Int.sign_eq_neg_one_iff_neg.mpr hcneg] at h1 h2
        rw [abs_of_neg hcneg] at h2
        refine ⟨?_, ?_, ?_⟩ <;> omega
      · rw [Int.sign_eq_one_iff_pos.mpr hcpos] at h1 h2
        rw [abs_of_pos hcpos] at h2
        refine ⟨?_, ?_, ?_⟩ <;> omega
    obtain ⟨hkc, hcpk, hcnk⟩ := hsigns
    refine ⟨?_, fun h => absurd h hm, fun _ => ?_⟩
    · rcases hc.lt_or_lt with hcneg | hcpos
      · have hkneg : k < 0 := hcnk hcneg
        rcases Ne.lt_or_lt hm with hmneg | hmpos
        · have hv : 0 < m * k := mul_pos_of_neg_of_neg hmneg hkneg
          rw [reduce_one_of_pos hv] at ha
          have ha2 : a = -((m * k - 1).tdiv (-c)) := by
            rw [Int.tdiv_neg, neg_neg]; exact ha
          have hnn : 0 ≤ (m * k - 1).tdiv (-c) :=
            Int.tdiv_nonneg (by omega) (by omega)
          have hle : a ≤ 0 := by omega
          have hres := mul_nonneg (neg_nonneg.mpr hle) (neg_nonneg.mpr hmneg.le)
          rwa [neg_mul_neg] at hres
        · have hv : m * k < 0 := mul_neg_of_pos_of_neg hmpos hkneg
          rw [reduce_one_of_neg hv] at ha
          have ha2 : a = (-(m * k + 1)).tdiv (-c) := by
            rw [Int.neg_tdiv, Int.tdiv_neg, neg_neg]; exact ha
          have hnn : 0 ≤ (-(m * k + 1)).tdiv (-c) :=
            Int.tdiv_nonneg (by omega) (by omega)
          have hge : 0 ≤ a := by omega
          exact mul_nonneg hge hmpos.le
      · have hkpos : 0 < k := hcpk hcpos
        rcases Ne.lt_or_lt hm with hmneg | hmpos
        · have hv : m * k < 0 := mul_neg_of_neg_of_pos hmneg hkpos
          rw [reduce_one_of_neg hv] at ha
          have ha2 : a = -((-(m * k + 1)).tdiv c) := by
            rw [Int.neg_tdiv, neg_neg]; exact ha
          have hnn : 0 ≤ (-(m * k + 1)).tdiv c :=
            Int.tdiv_nonneg (by omega) (by omega)
          have hle : a ≤ 0 := by omega
          have hres := mul_nonneg (neg_nonneg.mpr hle) (neg_nonneg.mpr hmneg.le)
          rwa [neg_mul_neg] at hres
        · have hv : 0 < m * k := mul_pos hmpos hkpos
          rw [reduce_one_of_pos hv] at ha
          have hnn : 0 ≤ (m * k - 1).tdiv c :=
            Int.tdiv_nonneg (by omega) (by omega)
          have hge : 0 ≤ a := by omega
          exact mul_nonneg hge hmpos.le
    · have hnat : a.natAbs = (m.natAbs * k.natAbs - 1) / c.natAbs := by
        rw [ha, Int.natAbs_tdiv, reduce_one_natAbs hvne, Int.natAbs_mul]
        rfl
      have hb := nat_div_bound m.natAbs k.natAbs c.natAbs hm1 hk1 hkc
      omega

theorem Vec2.ne_zero_iff (v : Vec2) : v ≠ 0 ↔ v.x ≠ 0 ∨ v.y ≠ 0 := by
  constructor
  · intro h
    by_contra hc
    push_neg at hc
    apply h
    cases v
    rw [Vec2.zero_def, Vec2.mk.injEq]
    exact ⟨hc.1, hc.2⟩
  · intro h heq
    subst heq
    rcases h with h | h <;> exact h rfl

theorem magnitude2_lt_of_natAbs (a m : Vec2)
    (hx : a.x.natAbs ≤ m.x.natAbs) (hy : a.y.natAbs ≤ m.y.natAbs)
    (hstrict : a.x.natAbs < m.x.natAbs ∨ a.y.natAbs < m.y.natAbs) :
    magnitude2 a < magnitude2 m := by
  simp only [magnitude2, dot]
  rw [← @Int.natAbs_mul_self a.x, ← @Int.natAbs_mul_self a.y,
      ← @Int.natAbs_mul_self m.x, ← @Int.natAbs_mul_self m.y]
  rcases hstrict with hs | hs
  · exact_mod_cast
      add_lt_add_of_lt_of_le (Nat.mul_lt_mul'' hs hs) (Nat.mul_le_mul hy hy)
  · exact_mod_cast
      add_lt_add_of_le_of_lt (Nat.mul_le_mul hx hx) (Nat.mul_lt_mul'' hs hs)

/-- C1 (amended): with `sign = 1`, nonzero movement, and non-parallel lines
(`cross(movement, edgeVector) ≠ 0`), a returned `CollidesWithEdgeAfter`
vector is zero on every axis on which the movement is zero, agrees with the
movement in sign per axis (so it never points against the movement), is
component-wise no greater in magnitude than the movement, and has squared
magnitude strictly less than the movement's.  (In the colinear branch these
bounds can fail; see the counterexample.) -/
theorem vertex_moving_towards_edge_nonparallel_allowed_bounds
    (vertex vertex_movement : Vec2) (edge : LineSegment) (a : Vec2)
    (hm : vertex_movement ≠ 0)
    (hcr : vector2_cross_product vertex_movement edge.vector ≠ 0)
    (h : vertex_moving_towards_edge vertex vertex_movement edge 1 =
      Except.ok (Collision.CollidesWithEdgeAfter a)) :
    (vertex_movement.x = 0 → a.x = 0) ∧ (vertex_movement.y = 0 → a.y = 0) ∧
    0 ≤ a.x * vertex_movement.x ∧ 0 ≤ a.y * vertex_movement.y ∧
    a.x.natAbs ≤ vertex_movement.x.natAbs ∧
    a.y.natAbs ≤ vertex_movement.y.natAbs ∧
    magnitude2 a < magnitude2 vertex_movement := by
  simp only [vertex_moving_towards_edge] at h
  rw [if_neg hcr] at h
  split at h
  · simp at h
  split at h
  · simp at h
  split at h
  · simp at h
  split at h
  · simp at h
  split at h
  · simp at h
  rename_i h1 h2 h3 h4 h5
  simp only [Except.ok.injEq, Collision.CollidesWithEdgeAfter.injEq] at h
  subst h
  simp only [Vec2.smul, mul_one]
  obtain ⟨hsx, hzx, hbx⟩ :=
    allowed_component_bound vertex_movement.x _ _ _ hcr h5
      (not_lt.mp h1) (not_lt.mp h2) rfl
  obtain ⟨hsy, hzy, hby⟩ :=
    allowed_component_bound vertex_movement.y _ _ _ hcr h5
      (not_lt.mp h1) (not_lt.mp h2) rfl
  refine ⟨hzx, hzy, hsx, hsy, ?_, ?_, ?_⟩
  · by_cases hx0 : vertex_movement.x = 0
    · rw [hzx hx0]
      exact Nat.zero_le _
    · exact (hbx hx0).le
  · by_cases hy0 : vertex_movement.y = 0
    · rw [hzy hy0]
      exact Nat.zero_le _
    · exact (hby hy0).le
  · apply magnitude2_lt_of_natAbs
    · by_cases hx0 : vertex_movement.x = 0
      · rw [hzx hx0]
        exact Nat.zero_le _
      · exact (hbx hx0).le
    · by_cases hy0 : vertex_movement.y = 0
      · rw [hzy hy0]
        exact Nat.zero_le _
      · exact (hby hy0).le
    · rcases (Vec2.ne_zero_iff vertex_movement).mp hm with hx0 | hy0
      · exact Or.inl (hbx hx0)
      · exact Or.inr (hby hy0)

/-- C1 witness: at vertex `(0,0)`, movement `(3,3)`, edge `(0,4)-(4,0)`,
`sign = 1` (a non-parallel, nonzero-movement input returning allowed
movement `(1,1)`), all the amended bounds hold. -/
theorem vertex_moving_towards_edge_nonparallel_allowed_bounds_witness :
    ((Vec2.mk 3 3).x = 0 → (Vec2.mk 1 1).x = 0) ∧
    ((Vec2.mk 3 3).y = 0 → (Vec2.mk 1 1).y = 0) ∧
    0 ≤ (Vec2.mk 1 1).x * (Vec2.mk 3 3).x ∧
    0 ≤ (Vec2.mk 1 1).y * (Vec2.mk 3 3).y ∧
    (Vec2.mk 1 1).x.natAbs ≤ (Vec2.mk 3 3).x.natAbs ∧
    (Vec2.mk 1 1).y.natAbs ≤ (Vec2.mk 3 3).y.natAbs ∧
    magnitude2 ⟨1, 1⟩ < magnitude2 ⟨3, 3⟩ :=
  vertex_moving_towards_edge_nonparallel_allowed_bounds
    ⟨0, 0⟩ ⟨3, 3⟩ ⟨⟨0, 4⟩, ⟨4, 0⟩⟩ ⟨1, 1⟩ (by decide) (by decide) rfl

/-- C2: in the colinear case (movement parallel to the edge and the vertex's
path on the edge's line), with `0 < minMul` and `minMul ≤ movementLengthSquared`
where `minMul` is the smaller of the two dot-product projections of the edge
endpoints (relative to the vertex) onto the movement direction, the test
returns `CollidesWithEdgeAfter` of the vector whose axis components are
`(movement_i * minMul - 1) / movementLengthSquared` (the `-1` being the
one-unit backoff), multiplied by `sign`. -/
theorem vertex_moving_towards_edge_colinear_collides
    (vertex vertex_movement : Vec2) (edge : LineSegment) (sign : Int)
    (hpar : vector2_cross_product vertex_movement edge.vector = 0)
    (hcol : vector2_cross_product (edge.start - vertex) vertex_movement = 0)
    (hpos : 0 < min (dot (edge.start - vertex) vertex_movement)
      (dot (edge.start - vertex + edge.vector) vertex_movement))
    (hle : min (dot (edge.start - vertex) vertex_movement)
      (dot (edge.start - vertex + edge.vector) vertex_movement) ≤
      magnitude2 vertex_movement) :
    vertex_moving_towards_edge vertex vertex_movement edge sign =
      Except.ok (Collision.CollidesWithEdgeAfter (Vec2.smul
        ⟨(vertex_movement.x *
            min (dot (edge.start - vertex) vertex_movement)
              (dot (edge.start - vertex + edge.vector) vertex_movement) -
            1).tdiv (magnitude2 vertex_movement),
         (vertex_movement.y *
            min (dot (edge.start - vertex) vertex_movement)
              (dot (edge.start - vertex + edge.vector) vertex_movement) -
            1).tdiv (magnitude2 vertex_movement)⟩ sign)) := by
  simp only [vertex_moving_towards_edge]
  rw [if_pos hpar, if_pos hcol]
  set A := dot (edge.start - vertex) vertex_movement with hA
  set B := dot (edge.start - vertex + edge.vector) vertex_movement with hB
  have hmin : (if A < B then A else B) = min A B := by split <;> omega
  have hmax : (if A < B then B else A) = max A B := by split <;> omega
  rw [hmin, hmax]
  rw [if_neg (by omega), if_neg (by omega), if_pos (by omega)]

/-- C2 witness: vertex `(0,0)`, movement `(2,1)`, edge `(2,1)-(8,4)`,
`sign = 1`: the colinearity and range hypotheses hold concretely
(`minMul = 5`, `movementLengthSquared = 5`) and the returned allowed
movement is `((2*5-1)/5, (1*5-1)/5) = (1,0)`. -/
theorem vertex_moving_towards_edge_colinear_collides_witness :
    vertex_moving_towards_edge ⟨0, 0⟩ ⟨2, 1⟩ ⟨⟨2, 1⟩, ⟨8, 4⟩⟩ 1 =
      Except.ok (Collision.CollidesWithEdgeAfter (Vec2.smul
        ⟨((Vec2.mk 2 1).x *
            min (dot (LineSegment.start ⟨⟨2, 1⟩, ⟨8, 4⟩⟩ - ⟨0, 0⟩) ⟨2, 1⟩)
              (dot (LineSegment.start ⟨⟨2, 1⟩, ⟨8, 4⟩⟩ - ⟨0, 0⟩ +
                LineSegment.vector ⟨⟨2, 1⟩, ⟨8, 4⟩⟩) ⟨2, 1⟩) -
            1).tdiv (magnitude2 ⟨2, 1⟩),
         ((Vec2.mk 2 1).y *
            min (dot (LineSegment.start ⟨⟨2, 1⟩, ⟨8, 4⟩⟩ - ⟨0, 0⟩) ⟨2, 1⟩)
              (dot (LineSegment.start ⟨⟨2, 1⟩, ⟨8, 4⟩⟩ - ⟨0, 0⟩ +
                LineSegment.vector ⟨⟨2, 1⟩, ⟨8, 4⟩⟩) ⟨2, 1⟩) -
            1).tdiv (magnitude2 ⟨2, 1⟩)⟩ 1)) :=
  vertex_moving_towards_edge_colinear_collides ⟨0, 0⟩ ⟨2, 1⟩ ⟨⟨2, 1⟩, ⟨8, 4⟩⟩ 1
    (by decide) (by decide) (by decide) (by decide)

/-- Entity identifiers (`EntityId = u32` in `src/game.rs`); modelled as `Nat`
(the claims under verification do not involve `u32` wraparound). -/
abbrev EntityId := Nat


/-- The record produced by the narrow-phase shape test
(`collision_info` in `movement_step`, `src/game.rs` lines 136-148). -/
structure CollisionInfo where
  magnitude2 : Int
  allowed_movement : Vec2
  line_segment : LineSegment
deriving DecidableEq

/-- The three-state outcome of one movement sub-step
(`MovementStep` in `src/game.rs` lines 99-109). -/
inductive MovementStep where
  | NoMovement
  | NoCollision (destination : Vec2)
  | Collision (allowed_movement : Vec2) (destination : Vec2)
      (line_segment : LineSegment)
deriving DecidableEq

/-- Modelled from the spec: `BestMap::insert_le` from the `best` crate is not
under `src/`; the spec describes it as a running-minimum holder keyed by
squared distance with "insert if less-or-equal" semantics, where a later
candidate whose key is less than or equal to the current best key overwrites
it. -/
def insert_le {V : Type} (acc : Option (Int × V)) (k : Int) (v : V) :
    Option (Int × V) :=
  match acc with
  | none => some (k, v)
  | some (k0, v0) => if k ≤ k0 then some (k, v) else some (k0, v0)

section MovementResolver

variable {Shape Aabb : Type}
variable (aabbOf : Shape → Vec2 → Aabb)
variable (unionAabb : Aabb → Aabb → Aabb)
variable (intersects : Aabb → Aabb → Bool)
variable (movement_collision_test :
  Shape → Vec2 → Shape → Vec2 → Vec2 → Option CollisionInfo)

/-- The body of the `for_each_intersection` closure in `movement_step`
(`src/game.rs` lines 128-153), named so it can be reasoned about: skip the
mover itself and candidates without position or shape, run the narrow-phase
test, and feed each hit to the best-map. -/
def movement_step_callback (id : EntityId) (position : Vec2)
    (position_table : EntityId → Option Vec2)
    (shape_table : EntityId → Option Shape) (movement : Vec2) (shape : Shape)
    (aabb : Aabb) (acc : Option (Int × (Vec2 × LineSegment)))
    (entry : Aabb × EntityId) : Option (Int × (Vec2 × LineSegment)) :=
  if intersects aabb entry.1 then
    if entry.2 ≠ id then
      match position_table entry.2, shape_table entry.2 with
      | some stationary_position, some stationary_shape =>
        match movement_collision_test shape position stationary_shape
            stationary_position movement with
        | some collision_info =>
            insert_le acc collision_info.magnitude2
              (collision_info.allowed_movement, collision_info.line_segment)
        | none => acc
      | _, _ => acc
    else acc
  else acc

/-- `movement_step` from `src/game.rs` (lines 111-167), parametric over the
external capabilities it consumes: `Shape::aabb` (`aabbOf`), `Aabb::union`
(`unionAabb`), `Shape::movement_collision_test`, and the loose quad tree.
Modelled from the spec: `LooseQuadTree::for_each_intersection` is not under
`src/`; per the spec's query contract it invokes the callback on each stored
`(boundingBox, payload)` entry intersecting the swept box, here a fold over
the entry list filtered by the abstract `intersects` predicate. -/
def movement_step (id : EntityId) (position : Vec2)
    (position_table : EntityId → Option Vec2)
    (shape_table : EntityId → Option Shape)
    (quad_tree : List (Aabb × EntityId)) (movement : Vec2) : MovementStep :=
  if movement.x = 0 ∧ movement.y = 0 then
    MovementStep.NoMovement
  else
    match shape_table id with
    | some shape =>
      let start_aabb := aabbOf shape position
      let end_aabb := aabbOf shape (position + movement)
      let aabb := unionAabb start_aabb end_aabb
      let closest_collision := quad_tree.foldl
        (movement_step_callback intersects movement_collision_test id position
          position_table shape_table movement shape aabb) none
      match closest_collision with
      | none => MovementStep.NoCollision (position + movement)
      | some (_, (allowed_movement, line_segment)) =>
          MovementStep.Collision allowed_movement (position + allowed_movement)
            line_segment
    | none => MovementStep.NoMovement

/-- One quad-tree entry's narrow-phase candidate, if any: the entry produces
a `(squaredDistance, (allowedMovement, contactEdge))` triple exactly when it
intersects the swept box, is not the mover, and has a position, a shape, and
a narrow-phase contact. -/
def narrow_phase_candidate (id : EntityId) (position : Vec2)
    (position_table : EntityId → Option Vec2)
    (shape_table : EntityId → Option Shape) (movement : Vec2) (shape : Shape)
    (aabb : Aabb) (entry : Aabb × EntityId) :
    Option (Int × (Vec2 × LineSegment)) :=
  if intersects aabb entry.1 then
    if entry.2 ≠ id then
      match position_table entry.2, shape_table entry.2 with
      | some stationary_position, some stationary_shape =>
        match movement_collision_test shape position stationary_shape
            stationary_position movement with
        | some collision_info =>
            some (collision_info.magnitude2,
              (collision_info.allowed_movement, collision_info.line_segment))
        | none => none
      | _, _ => none
    else none
  else none

/-- The list of narrow-phase hits produced by one sub-step's broad-phase
traversal, in traversal order. -/
def narrow_phase_hits (id : EntityId) (position : Vec2)
    (position_table : EntityId → Option Vec2)
    (shape_table : EntityId → Option Shape)
    (quad_tree : List (Aabb × EntityId)) (movement : Vec2) (shape : Shape) :
    List (Int × (Vec2 × LineSegment)) :=
  quad_tree.filterMap
    (narrow_phase_candidate intersects movement_collision_test id position
      position_table shape_table movement shape
      (unionAabb (aabbOf shape position) (aabbOf shape (position + movement))))

end MovementResolver

/-- The selection rule the resolver is claimed to implement, stated
independently of the fold: the best of an empty candidate list is nothing;
the best of `p :: l` is the best of `l` when its key is less than or equal
to `p`'s key (so a later candidate wins ties), and `p` otherwise. -/
def select_best_spec {V : Type} : List (Int × V) → Option (Int × V)
  | [] => none
  | p :: l =>
    match select_best_spec l with
    | none => some p
    | some q => if q.1 ≤ p.1 then some q else some p

theorem foldl_insert_le_from_some {V : Type} (l : List (Int × V))
    (q : Int × V) :
    l.foldl (fun acc kv => insert_le acc kv.1 kv.2) (some q) =
      some (match select_best_spec l with
        | none => q
        | some r => if r.1 ≤ q.1 then r else q) := by
  induction l generalizing q with
  | nil => rfl
  | cons p l ih =>
    simp only [List.foldl_cons]
    have hstep : insert_le (some q) p.1 p.2 =
        if p.1 ≤ q.1 then some p else some q := rfl
    rw [hstep]
    by_cases hpq : p.1 ≤ q.1
    · rw [if_pos hpq, ih p]
      simp only [select_best_spec]
      cases hsel : select_best_spec l with
      | none => simp [hpq]
      | some r =>
        dsimp only
        by_cases hrp : r.1 ≤ p.1
        · simp only [if_pos hrp] <;>
            first
              | rfl
              | (split_ifs <;> first | rfl | (exfalso; omega))
        · simp only [if_neg hrp] <;>
            first
              | rfl
              | (split_ifs <;> first | rfl | (exfalso; omega))
    · rw [if_neg hpq, ih q]
      simp only [select_best_spec]
      cases hsel : select_best_spec l with
      | none => simp [hpq]
      | some r =>
        dsimp only
        by_cases hrp : r.1 ≤ p.1
        · simp only [if_pos hrp] <;>
            first
              | rfl
              | (split_ifs <;> first | rfl | (exfalso; omega))
        · simp only [if_neg hrp] <;>
            first
              | rfl
              | (split_ifs <;> first | rfl | (exfalso; omega))

theorem foldl_insert_le_eq_select_best_spec {V : Type} (l : List (Int × V)) :
    l.foldl (fun acc kv => insert_le acc kv.1 kv.2) none = select_best_spec l := by
  cases l with
  | nil => rfl
  | cons p l =>
    simp only [List.foldl_cons]
    have hstep : insert_le (none : Option (Int × V)) p.1 p.2 = some p := rfl
    rw [hstep, foldl_insert_le_from_some]
    simp only [select_best_spec]
    cases hsel : select_best_spec l with
    | none => rfl
    | some r => dsimp only; split_ifs <;> rfl

theorem select_best_spec_min {V : Type} (l : List (Int × V)) (p : Int × V)
    (h : select_best_spec l = some p) :
    p ∈ l ∧ ∀ q ∈ l, p.1 ≤ q.1 := by
  induction l generalizing p with
  | nil => simp [select_best_spec] at h
  | cons a l ih =>
    simp only [select_best_spec] at h
    cases hsel : select_best_spec l with
    | none =>
      rw [hsel] at h
      cases h
      have hempty : l = [] := by
        cases l with
        | nil => rfl
        | cons b l' =>
          exfalso
          simp only [select_best_spec] at hsel
          cases hsel2 : select_best_spec l' with
          | none => rw [hsel2] at hsel; cases hsel
          | some r =>
            rw [hsel2] at hsel
            dsimp only at hsel
            split_ifs at hsel <;> cases hsel
      subst hempty
      exact ⟨List.mem_singleton.mpr rfl, by intro q hq; rw [List.mem_singleton.mp hq]⟩
    | some r =>
      rw [hsel] at h
      dsimp only at h
      obtain ⟨hr_mem, hr_min⟩ := ih r hsel
      split_ifs at h with hle
      · cases h
        refine ⟨List.mem_cons_of_mem a hr_mem, ?_⟩
        intro q hq
        rcases List.mem_cons.mp hq with rfl | hq
        · exact hle
        · exact hr_min q hq
      · cases h
        refine ⟨List.mem_cons_self a l, ?_⟩
        intro q hq
        rcases List.mem_cons.mp hq with rfl | hq
        · exact le_refl _
        · exact le_trans (by omega) (hr_min q hq)

/-- Feeding one optional candidate to the best-map: a hit is inserted with
`insert_le`, a miss leaves the accumulator unchanged. -/
def apply_candidate {V : Type} (acc : Option (Int × V)) :
    Option (Int × V) → Option (Int × V)
  | some kv => insert_le acc kv.1 kv.2
  | none => acc

theorem foldl_insert_le_filterMap {α V : Type} (f : α → Option (Int × V))
    (l : List α) (acc : Option (Int × V)) :
    l.foldl (fun acc a => apply_candidate acc (f a)) acc =
      (l.filterMap f).foldl (fun acc kv => insert_le acc kv.1 kv.2) acc := by
  induction l generalizing acc with
  | nil => rfl
  | cons a l ih =>
    simp only [List.foldl_cons, List.filterMap_cons]
    cases hfa : f a with
    | none => exact ih acc
    | some kv =>
      dsimp only [apply_candidate]
      simp only [List.foldl_cons]
      exact ih _

theorem movement_step_callback_eq_candidate {Shape Aabb : Type}
    (intersects : Aabb → Aabb → Bool)
    (movement_collision_test :
      Shape → Vec2 → Shape → Vec2 → Vec2 → Option CollisionInfo)
    (id : EntityId) (position : Vec2)
    (position_table : EntityId → Option Vec2)
    (shape_table : EntityId → Option Shape) (movement : Vec2) (shape : Shape)
    (aabb : Aabb) (acc : Option (Int × (Vec2 × LineSegment)))
    (entry : Aabb × EntityId) :
    movement_step_callback intersects movement_collision_test id position
        position_table shape_table movement shape aabb acc entry =
      apply_candidate acc
        (narrow_phase_candidate intersects movement_collision_test id
          position position_table shape_table movement shape aabb entry) := by
  simp only [movement_step_callback, narrow_phase_candidate]
  by_cases hI : intersects aabb entry.1 = true
  · rw [if_pos hI, if_pos hI]
    by_cases hid : entry.2 ≠ id
    · rw [if_pos hid, if_pos hid]
      cases hp : position_table entry.2 with
      | none => rfl
      | some stationary_position =>
        cases hs : shape_table entry.2 with
        | none => rfl
        | some stationary_shape =>
          dsimp only
          cases hct : movement_collision_test shape position stationary_shape
              stationary_position movement with
          | none => rfl
          | some collision_info => rfl
    · rw [if_neg hid, if_neg hid]
      rfl
  · rw [if_neg hI, if_neg hI]
    rfl

/-- C4 (amended): in each movement sub-step where the mover has a shape and a
nonzero movement, the resolver's outcome is determined by the narrow-phase
hit list in traversal order: if no candidate produces a hit the step yields
`NoCollision` with destination `position + movement`; otherwise it yields
`Collision` for the hit selected by the "insert if less-or-equal" rule — the
hit with the smallest `squaredDistance`, ties broken by LAST-seen (later
equal candidates overwrite earlier ones, not first-seen). -/
theorem movement_step_selects_best {Shape Aabb : Type}
    (aabbOf : Shape → Vec2 → Aabb) (unionAabb : Aabb → Aabb → Aabb)
    (intersects : Aabb → Aabb → Bool)
    (movement_collision_test :
      Shape → Vec2 → Shape → Vec2 → Vec2 → Option CollisionInfo)
    (id : EntityId) (position : Vec2)
    (position_table : EntityId → Option Vec2)
    (shape_table : EntityId → Option Shape)
    (quad_tree : List (Aabb × EntityId)) (movement : Vec2) (shape : Shape)
    (hshape : shape_table id = some shape)
    (hmv : ¬(movement.x = 0 ∧ movement.y = 0)) :
    (movement_step aabbOf unionAabb intersects movement_collision_test id
        position position_table shape_table quad_tree movement =
      match select_best_spec (narrow_phase_hits aabbOf unionAabb intersects
          movement_collision_test id position position_table shape_table
          quad_tree movement shape) with
      | none => MovementStep.NoCollision (position + movement)
      | some (_, (allowed_movement, line_segment)) =>
          MovementStep.Collision allowed_movement (position + allowed_movement)
            line_segment) ∧
    (∀ p, select_best_spec (narrow_phase_hits aabbOf unionAabb intersects
        movement_collision_test id position position_table shape_table
        quad_tree movement shape) = some p →
      p ∈ narrow_phase_hits aabbOf unionAabb intersects
          movement_collision_test id position position_table shape_table
          quad_tree movement shape ∧
        ∀ q ∈ narrow_phase_hits aabbOf unionAabb intersects
            movement_collision_test id position position_table shape_table
            quad_tree movement shape, p.1 ≤ q.1) := by
  constructor
  · simp only [movement_step]
    rw [if_neg hmv, hshape]
    dsimp only
    rw [show movement_step_callback intersects movement_collision_test id
          position position_table shape_table movement shape
          (unionAabb (aabbOf shape position)
            (aabbOf shape (position + movement))) =
        (fun acc entry => apply_candidate acc
          (narrow_phase_candidate intersects movement_collision_test id
            position position_table shape_table movement shape
            (unionAabb (aabbOf shape position)
              (aabbOf shape (position + movement))) entry)) from
      funext fun acc => funext fun entry =>
        movement_step_callback_eq_candidate intersects movement_collision_test
          id position position_table shape_table movement shape _ acc entry]
    rw [foldl_insert_le_filterMap, foldl_insert_le_eq_select_best_spec]
    rfl
  · intro p hp
    exact select_best_spec_min _ p hp

/-- C4 counterexample: a concrete sub-step (mover `0` at the origin, shape
table mapping entity `n` to shape `n`, quad tree holding entities `1` and
`2` in that order, both producing narrow-phase hits with the same squared
distance `5` but different allowed movements `(1,0)` and `(2,0)`) resolves
to the LATER candidate's data, not the first-seen one, refuting the claim's
"ties broken by first-seen". -/
theorem movement_step_tie_last_counterexample :
    narrow_phase_hits (fun (_ : Nat) (_ : Vec2) => (0 : Nat)) (fun _ _ => 0)
        (fun _ _ => true)
        (fun _ _ stationary_shape _ _ =>
          if stationary_shape = 1 then
            some ⟨5, ⟨1, 0⟩, ⟨⟨0, 0⟩, ⟨1, 1⟩⟩⟩
          else
            some ⟨5, ⟨2, 0⟩, ⟨⟨0, 0⟩, ⟨2, 2⟩⟩⟩)
        0 ⟨0, 0⟩
        (fun n => if n = 0 then some ⟨0, 0⟩ else if n = 1 then some ⟨5, 0⟩
          else if n = 2 then some ⟨9, 0⟩ else none)
        (fun n => if n = 0 then some 0 else if n = 1 then some 1
          else if n = 2 then some 2 else none)
        [(0, 1), (0, 2)] ⟨1, 1⟩ 0 =
      [(5, (⟨1, 0⟩, ⟨⟨0, 0⟩, ⟨1, 1⟩⟩)), (5, (⟨2, 0⟩, ⟨⟨0, 0⟩, ⟨2, 2⟩⟩))] ∧
    movement_step (fun (_ : Nat) (_ : Vec2) => (0 : Nat)) (fun _ _ => 0)
        (fun _ _ => true)
        (fun _ _ stationary_shape _ _ =>
          if stationary_shape = 1 then
            some ⟨5, ⟨1, 0⟩, ⟨⟨0, 0⟩, ⟨1, 1⟩⟩⟩
          else
            some ⟨5, ⟨2, 0⟩, ⟨⟨0, 0⟩, ⟨2, 2⟩⟩⟩)
        0 ⟨0, 0⟩
        (fun n => if n = 0 then some ⟨0, 0⟩ else if n = 1 then some ⟨5, 0⟩
          else if n = 2 then some ⟨9, 0⟩ else none)
        (fun n => if n = 0 then some 0 else if n = 1 then some 1
          else if n = 2 then some 2 else none)
        [(0, 1), (0, 2)] ⟨1, 1⟩ =
      MovementStep.Collision ⟨2, 0⟩ ⟨2, 0⟩ ⟨⟨0, 0⟩, ⟨2, 2⟩⟩ ∧
    MovementStep.Collision (⟨2, 0⟩ : Vec2) ⟨2, 0⟩ ⟨⟨0, 0⟩, ⟨2, 2⟩⟩ ≠
      MovementStep.Collision ⟨1, 0⟩ ⟨1, 0⟩ ⟨⟨0, 0⟩, ⟨1, 1⟩⟩ := by
  refine ⟨by decide, by decide, by decide⟩

/-- C4 witness: with no quad-tree entries, mover `0` with shape `0` and
nonzero movement `(1,0)`, the hypotheses hold and the sub-step resolves per
the selection rule (here: no hits, `NoCollision` at `position + movement`). -/
theorem movement_step_selects_best_witness :
    (movement_step (fun (_ : Nat) (_ : Vec2) => (0 : Nat)) (fun _ _ => 0)
        (fun _ _ => true) (fun _ _ _ _ _ => none) 0 ⟨0, 0⟩
        (fun _ => some ⟨0, 0⟩) (fun _ => some 0) [] ⟨1, 0⟩ =
      match select_best_spec (narrow_phase_hits
          (fun (_ : Nat) (_ : Vec2) => (0 : Nat)) (fun _ _ => 0)
          (fun _ _ => true) (fun _ _ _ _ _ => none) 0 ⟨0, 0⟩
          (fun _ => some ⟨0, 0⟩) (fun _ => some 0) [] ⟨1, 0⟩ 0) with
      | none => MovementStep.NoCollision ((⟨0, 0⟩ : Vec2) + ⟨1, 0⟩)
      | some (_, (allowed_movement, line_segment)) =>
          MovementStep.Collision allowed_movement
            ((⟨0, 0⟩ : Vec2) + allowed_movement) line_segment) ∧
    (∀ p, select_best_spec (narrow_phase_hits
        (fun (_ : Nat) (_ : Vec2) => (0 : Nat)) (fun _ _ => 0)
        (fun _ _ => true) (fun _ _ _ _ _ => none) 0 ⟨0, 0⟩
        (fun _ => some ⟨0, 0⟩) (fun _ => some 0) [] ⟨1, 0⟩ 0) = some p →
      p ∈ narrow_phase_hits
          (fun (_ : Nat) (_ : Vec2) => (0 : Nat)) (fun _ _ => 0)
          (fun _ _ => true) (fun _ _ _ _ _ => none) 0 ⟨0, 0⟩
          (fun _ => some ⟨0, 0⟩) (fun _ => some 0) [] ⟨1, 0⟩ 0 ∧
        ∀ q ∈ narrow_phase_hits
            (fun (_ : Nat) (_ : Vec2) => (0 : Nat)) (fun _ _ => 0)
            (fun _ _ => true) (fun _ _ _ _ _ => none) 0 ⟨0, 0⟩
            (fun _ => some ⟨0, 0⟩) (fun _ => some 0) [] ⟨1, 0⟩ 0,
          p.1 ≤ q.1) :=
  movement_step_selects_best (fun (_ : Nat) (_ : Vec2) => (0 : Nat))
    (fun _ _ => 0) (fun _ _ => true) (fun _ _ _ _ _ => none) 0 ⟨0, 0⟩
    (fun _ => some ⟨0, 0⟩) (fun _ => some 0) [] ⟨1, 0⟩ 0 rfl (by decide)

/-- `MAX_ITERATIONS` from `position_after_movement` (`src/game.rs` line 181). -/
def MAX_ITERATIONS : Nat := 16

section ResolverLoop

variable {Shape Aabb : Type}
variable (aabbOf : Shape → Vec2 → Aabb)
variable (unionAabb : Aabb → Aabb → Aabb)
variable (intersects : Aabb → Aabb → Bool)
variable (movement_collision_test :
  Shape → Vec2 → Shape → Vec2 → Vec2 → Option CollisionInfo)
variable (slide_movement_of : Vec2 → Vec2 → LineSegment → Vec2)

/-- The bounded `for` loop of `position_after_movement` (`src/game.rs` lines
182-219), with the fuel argument counting the remaining iterations.
Modelled from the spec: the slide computation of the `Collision` arm (lines
199-212; steps 7-8 of the resolver state machine) converts the remaining
movement to `f32`, projects it onto the normalized contact-edge direction,
adds a 0.1-pixel padding away from the surface, and converts back to fixed
point; floating point has no shallow embedding here, so it is abstracted as
the parameter `slide_movement_of`, which receives the sub-step's movement,
the allowed movement, and the contact edge, and returns the padded slide
vector in fixed point.  The loop theorems hold for every such function,
including the source's. -/
def movement_loop (id : EntityId)
    (position_table : EntityId → Option Vec2)
    (shape_table : EntityId → Option Shape)
    (quad_tree : List (Aabb × EntityId)) :
    Nat → Vec2 → Vec2 → Vec2
  | 0, position, _ => position
  | fuel + 1, position, movement =>
    match movement_step aabbOf unionAabb intersects movement_collision_test id
        position position_table shape_table quad_tree movement with
    | MovementStep.NoMovement => position
    | MovementStep.NoCollision destination => destination
    | MovementStep.Collision allowed_movement destination line_segment =>
      let slide_movement :=
        slide_movement_of movement allowed_movement line_segment
      if slide_movement = 0 then destination
      else
        movement_loop id position_table shape_table quad_tree fuel destination
          slide_movement

/-- `position_after_movement` from `src/game.rs` (lines 169-221): look up the
entity's position (returning `none` when absent), then run the sub-step loop
for at most `MAX_ITERATIONS` iterations and return the resulting position. -/
def position_after_movement (id : EntityId)
    (position_table : EntityId → Option Vec2)
    (shape_table : EntityId → Option Shape)
    (quad_tree : List (Aabb × EntityId)) (movement : Vec2) : Option Vec2 :=
  match position_table id with
  | none => none
  | some position =>
      some (movement_loop aabbOf unionAabb intersects movement_collision_test
        slide_movement_of id position_table shape_table quad_tree
        MAX_ITERATIONS position movement)

/-- C5: the movement resolver returns `none` exactly when the entity has no
recorded position; for every entity with a recorded position it returns a
`some` final position, whatever the movement, shape table, quad tree,
narrow-phase test, or slide function. -/
theorem position_after_movement_none_iff (id : EntityId)
    (position_table : EntityId → Option Vec2)
    (shape_table : EntityId → Option Shape)
    (quad_tree : List (Aabb × EntityId)) (movement : Vec2) :
    position_after_movement aabbOf unionAabb intersects
        movement_collision_test slide_movement_of id position_table
        shape_table quad_tree movement = none ↔
      position_table id = none := by
  cases hp : position_table id <;> simp [position_after_movement, hp]

/-- C6: the sub-step loop is fuel-bounded by `MAX_ITERATIONS = 16`; with the
fuel exhausted it returns the last computed position; and for an entity with
a recorded position the resolver returns exactly the result of the 16-fuel
loop — in particular a defined position for every call. -/
theorem position_after_movement_iteration_cap (id : EntityId)
    (position_table : EntityId → Option Vec2)
    (shape_table : EntityId → Option Shape)
    (quad_tree : List (Aabb × EntityId)) (movement : Vec2) :
    MAX_ITERATIONS = 16 ∧
    (∀ position movement2,
      movement_loop aabbOf unionAabb intersects movement_collision_test
        slide_movement_of id position_table shape_table quad_tree 0 position
        movement2 = position) ∧
    (∀ position, position_table id = some position →
      position_after_movement aabbOf unionAabb intersects
          movement_collision_test slide_movement_of id position_table
          shape_table quad_tree movement =
        some (movement_loop aabbOf unionAabb intersects
          movement_collision_test slide_movement_of id position_table
          shape_table quad_tree MAX_ITERATIONS position movement)) := by
  refine ⟨rfl, fun _ _ => rfl, fun position hp => ?_⟩
  simp [position_after_movement, hp]

/-- C9: an entity with a recorded position but no recorded shape treats every
movement vector, including nonzero ones, as `NoMovement` in each sub-step,
and the resolver returns its current position unchanged. -/
theorem position_after_movement_no_shape (id : EntityId)
    (position_table : EntityId → Option Vec2)
    (shape_table : EntityId → Option Shape)
    (quad_tree : List (Aabb × EntityId)) (movement : Vec2) (position : Vec2)
    (hshape : shape_table id = none)
    (hpos : position_table id = some position) :
    (∀ pos mv,
      movement_step aabbOf unionAabb intersects movement_collision_test id
        pos position_table shape_table quad_tree mv =
          MovementStep.NoMovement) ∧
    position_after_movement aabbOf unionAabb intersects
        movement_collision_test slide_movement_of id position_table
        shape_table quad_tree movement = some position := by
  have hstep : ∀ pos mv,
      movement_step aabbOf unionAabb intersects movement_collision_test id
        pos position_table shape_table quad_tree mv =
          MovementStep.NoMovement := by
    intro pos mv
    simp [movement_step, hshape]
  refine ⟨hstep, ?_⟩
  simp only [position_after_movement, hpos]
  rw [show MAX_ITERATIONS = 15 + 1 from rfl]
  simp [movement_loop, hstep]

end ResolverLoop

/-- C6 witness: with trivial capabilities, an entity whose recorded position
is `(3,4)`, and movement `(1,0)`: exhausted fuel returns the position
unchanged and the resolver returns the 16-fuel loop result. -/
theorem position_after_movement_iteration_cap_witness :
    movement_loop (fun (_ : Unit) (_ : Vec2) => ()) (fun _ _ => ())
        (fun _ _ => true) (fun _ _ _ _ _ => none) (fun _ _ _ => 0) 0
        (fun _ => some ⟨3, 4⟩) (fun _ => none) [] 0 ⟨3, 4⟩ ⟨1, 0⟩ = ⟨3, 4⟩ ∧
    position_after_movement (fun (_ : Unit) (_ : Vec2) => ()) (fun _ _ => ())
        (fun _ _ => true) (fun _ _ _ _ _ => none) (fun _ _ _ => 0) 0
        (fun _ => some ⟨3, 4⟩) (fun _ => none) [] ⟨1, 0⟩ =
      some (movement_loop (fun (_ : Unit) (_ : Vec2) => ()) (fun _ _ => ())
        (fun _ _ => true) (fun _ _ _ _ _ => none) (fun _ _ _ => 0) 0
        (fun _ => some ⟨3, 4⟩) (fun _ => none) [] MAX_ITERATIONS ⟨3, 4⟩
        ⟨1, 0⟩) := by
  have h := position_after_movement_iteration_cap
    (fun (_ : Unit) (_ : Vec2) => ()) (fun _ _ => ()) (fun _ _ => true)
    (fun _ _ _ _ _ => none) (fun _ _ _ => 0) 0 (fun _ => some ⟨3, 4⟩)
    (fun _ => none) [] ⟨1, 0⟩
  exact ⟨h.2.1 ⟨3, 4⟩ ⟨1, 0⟩, h.2.2 ⟨3, 4⟩ rfl⟩

/-- C9 witness: an entity at `(2,2)` with no shape and nonzero movement
`(5,5)` yields `NoMovement` sub-steps and an unchanged resolver result. -/
theorem position_after_movement_no_shape_witness :
    (∀ pos mv,
      movement_step (fun (_ : Unit) (_ : Vec2) => ()) (fun _ _ => ())
        (fun _ _ => true) (fun _ _ _ _ _ => none) 0 pos
        (fun _ => some ⟨2, 2⟩) (fun _ => none) [] mv =
          MovementStep.NoMovement) ∧
    position_after_movement (fun (_ : Unit) (_ : Vec2) => ()) (fun _ _ => ())
        (fun _ _ => true) (fun _ _ _ _ _ => none) (fun _ _ _ => 0) 0
        (fun _ => some ⟨2, 2⟩) (fun _ => none) [] ⟨5, 5⟩ = some ⟨2, 2⟩ :=
  position_after_movement_no_shape (fun (_ : Unit) (_ : Vec2) => ())
    (fun _ _ => ()) (fun _ _ => true) (fun _ _ _ _ _ => none)
    (fun _ _ _ => 0) 0 (fun _ => some ⟨2, 2⟩) (fun _ => none) [] ⟨5, 5⟩
    ⟨2, 2⟩ rfl rfl

/-- `GameState` from `src/game.rs` (lines 89-97): the entity id allocator
(holding the next id to hand out), the sparse per-entity component tables,
and the broad-phase quad tree.  Component tables are modelled as partial
maps; the quad tree as its list of `(boundingBox, entityId)` entries in
insertion order; colours (an `[f32; 3]` render detail) as an abstract type. -/
structure GameState (Shape Aabb Colour : Type) where
  player_id : Option EntityId
  entity_id_allocator : Nat
  position : EntityId → Option Vec2
  shape : EntityId → Option Shape
  colour : EntityId → Option Colour
  velocity : EntityId → Option Vec2
  quad_tree : List (Aabb × EntityId)

/-- `GameState::clear` from `src/game.rs` (lines 238-245), the full reset
invoked by `init_demo`: clears the player id, restarts the id allocator at
its initial value `0`, and empties the position, shape, colour, and velocity
tables.  The quad tree field is not touched, exactly as in the source. -/
def GameState.clear {Shape Aabb Colour : Type}
    (s : GameState Shape Aabb Colour) : GameState Shape Aabb Colour :=
  { s with
    player_id := none
    entity_id_allocator := 0
    position := fun _ => none
    shape := fun _ => none
    colour := fun _ => none
    velocity := fun _ => none }

/-- `GameState::add_entity` from `src/game.rs` (lines 246-264): allocate the
next id, record the position, insert the entity's bounding box into the quad
tree (modelled from the spec's `insert(boundingBox, payload)` contract as
appending an entry), record shape and colour, and return the id. -/
def GameState.add_entity {Shape Aabb Colour : Type}
    (aabbOf : Shape → Vec2 → Aabb) (s : GameState Shape Aabb Colour)
    (position : Vec2) (shape : Shape) (colour : Colour) :
    EntityId × GameState Shape Aabb Colour :=
  let id := s.entity_id_allocator
  (id,
    { s with
      entity_id_allocator := s.entity_id_allocator + 1
      position := fun j => if j = id then some position else s.position j
      quad_tree := s.quad_tree ++ [(aabbOf shape position, id)]
      shape := fun j => if j = id then some shape else s.shape j
      colour := fun j => if j = id then some colour else s.colour j })

/-- C10: the full reset restarts the id counter at `0` and empties the
position, shape, colour, and velocity tables, but leaves the quad tree
unchanged; the first entity added after a reset is allocated id `0` (an id
the pre-reset session already used) and the pre-reset quad-tree entries all
persist alongside its new entry, so stale entries can refer to reused ids. -/
theorem GameState.clear_resets_tables_not_quad_tree
    {Shape Aabb Colour : Type} (aabbOf : Shape → Vec2 → Aabb)
    (s : GameState Shape Aabb Colour) (p : Vec2) (sh : Shape) (c : Colour) :
    s.clear.quad_tree = s.quad_tree ∧
    s.clear.player_id = none ∧
    s.clear.entity_id_allocator = 0 ∧
    (∀ i, s.clear.position i = none ∧ s.clear.shape i = none ∧
      s.clear.colour i = none ∧ s.clear.velocity i = none) ∧
    (GameState.add_entity aabbOf s.clear p sh c).1 = 0 ∧
    (GameState.add_entity aabbOf s.clear p sh c).2.quad_tree =
      s.quad_tree ++ [(aabbOf sh p, 0)] :=
  ⟨rfl, rfl, rfl, fun _ => ⟨rfl, rfl, rfl, rfl⟩, rfl, rfl⟩
